import Mathlib

/-!
Verification of the PosePipeline computation-graph core against its
natural-language specification.  The definitions below are a shallow
embedding of `pose_pipeline/pipeline.py`: per-frame track resolution and
pandas-style gap filling from `PersonBbox.make`, the statistics of
`DetectedFrames.make`, the method-dispatch chains of `TrackingBbox.make`
and `TopDownPerson.make`, the transient-file handling of the `make`
methods, and the `key_source` restrictions.  Machine floats appear in the
source only as opaque box coordinates and as the NaN missing-value marker;
boxes are embedded as rational 4-vectors and missingness as `Option`.
-/

namespace PosePipeline

/-- A bounding box in tlhw form, as stored in the `tlhw` field of a raw
tracking detection. -/
abbrev BBox : Type := ℚ × ℚ × ℚ × ℚ

/-- One detection of a raw tracking frame: `{track_id, tlhw, confidence?}`.
The optional confidence mirrors the source test
`if "confidence" in valid[0].keys()` in `DetectedFrames.make`. -/
structure Det where
  track_id : Int
  tlhw : BBox
  confidence : Option ℚ
deriving DecidableEq

/-- Embeds `process_timestamp` inside `PersonBbox.make` (pipeline.py
lines 386-391): keep the detections whose `track_id` is in `keep_tracks`;
exactly one valid detection gives `present = True` with its box, anything
else gives `present = False` with the zero box. -/
def process_timestamp (keep : List Int) (frame : List Det) : Bool × BBox :=
  match frame.filter (fun d => keep.contains d.track_id) with
  | [d] => (true, d.tlhw)
  | _ => (false, (0, 0, 0, 0))

/-- Embeds `extract_person_track` (pipeline.py lines 384-393): the
pre-smoothing per-frame resolution applied to every frame. -/
def extract_person_track (keep : List Int) (tracks : List (List Det)) :
    List (Bool × BBox) :=
  tracks.map (process_timestamp keep)

/-- Embeds `df.iloc[~present] = np.nan` (pipeline.py line 403): rows whose
`present` flag is false become missing.  The source sets all four
coordinates of such a row to NaN at once, so a frame is embedded as one
`Option BBox`; the per-column pandas fills act identically on four columns
whose missingness patterns coincide. -/
def maskMissing (l : List (Bool × BBox)) : List (Option BBox) :=
  l.map (fun pb => if pb.1 then some pb.2 else none)

/-- Embeds one position of `df.fillna(method=bfill, axis=0, limit=2)`
(pipeline.py line 404): a missing position takes the next valid value when
it lies at most two frames ahead.  Pandas fills at most `limit` trailing
positions of each run of missing values, which is exactly the condition
that the next valid value is within distance 2. -/
def bfill2At {α : Type} (l : List (Option α)) (k : Nat) : Option α :=
  match l[k]? with
  | some (some x) => some x
  | _ =>
    match l[k + 1]? with
    | some (some x) => some x
    | _ =>
      match l[k + 2]? with
      | some (some x) => some x
      | _ => none

/-- Embeds one position of `df.fillna(method=ffill, axis=0, limit=2)`
(pipeline.py line 405): a missing position takes the previous valid value
when it lies at most two frames back. -/
def ffill2At {α : Type} (l : List (Option α)) (k : Nat) : Option α :=
  match l[k]? with
  | some (some x) => some x
  | _ =>
    match k with
    | 0 => none
    | j + 1 =>
      match l[j]? with
      | some (some x) => some x
      | _ =>
        match j with
        | 0 => none
        | i + 1 =>
          match l[i]? with
          | some (some x) => some x
          | _ => none

/-- The whole backward-fill pass of pipeline.py line 404. -/
def bfill2 {α : Type} (l : List (Option α)) : List (Option α) :=
  (List.range l.length).map (bfill2At l)

/-- The whole forward-fill pass of pipeline.py line 405, applied in the
source to the result of the backward pass. -/
def ffill2 {α : Type} (l : List (Option α)) : List (Option α) :=
  (List.range l.length).map (ffill2At l)

/-- The committed `PersonBbox` row: `present` (pipeline.py line 408, true
iff no coordinate of the row is NaN after the fills) and `bbox` (line 409,
with NaN rows embedded as `none`). -/
structure PersonBboxRow where
  present : List Bool
  bbox : List (Option BBox)
deriving DecidableEq

/-- Embeds `PersonBbox.make` (pipeline.py lines 379-411): per-frame
resolution, NaN masking, backward fill then forward fill both limited
to 2, and recomputation of `present` from the remaining missing values. -/
def personBboxMake (keep : List Int) (tracks : List (List Det)) :
    PersonBboxRow :=
  let df := ffill2 (bfill2 (maskMissing (extract_person_track keep tracks)))
  ⟨df.map Option.isSome, df⟩

/-- Convenience constructor for concrete test frames: a detection with
track id 3 and a box distinguished by its first coordinate. -/
def det3 (q : ℚ) : Det := ⟨3, (q, 0, 0, 0), none⟩

/-! ### DetectedFrames statistics (pipeline.py lines 448-487) -/

/-- One entry of the `frame_data` statistics list built by
`extract_person_stats` in `DetectedFrames.make`. -/
structure FrameStat where
  present : Bool
  confidence : ℚ
  others : Nat
deriving DecidableEq

/-- Embeds `process_timestamp` inside `DetectedFrames.make` (pipeline.py
lines 460-469): a frame with exactly one kept detection is counted as
present with that detection confidence (defaulting to 1.0 when the tracker
reports none) and `total_tracks - 1` other objects; any other frame is
counted as missed with confidence 0 and `total_tracks` other objects. -/
def process_stat (keep : List Int) (frame : List Det) : FrameStat :=
  match frame.filter (fun d => keep.contains d.track_id) with
  | [d] => ⟨true, d.confidence.getD 1, frame.length - 1⟩
  | _ => ⟨false, 0, frame.length⟩

/-- Embeds `extract_person_stats` (pipeline.py lines 458-471). -/
def extract_person_stats (keep : List Int) (tracks : List (List Det)) :
    List FrameStat :=
  tracks.map (process_stat keep)

/-- Insertion of a rational into a sorted list, used to embed the sorting
step of `np.median`. -/
def insertSorted (x : ℚ) : List ℚ → List ℚ
  | [] => [x]
  | y :: ys => if x ≤ y then x :: y :: ys else y :: insertSorted x ys

/-- Insertion sort on rationals. -/
def sortQ (l : List ℚ) : List ℚ := l.foldr insertSorted []

/-- Embeds `np.median`: the middle element of the sorted list for odd
length, the average of the two middle elements for even length. -/
def ratMedian (l : List ℚ) : ℚ :=
  if l.length % 2 = 1 then ((sortQ l)[l.length / 2]?).getD 0
  else (((sortQ l)[l.length / 2 - 1]?).getD 0 +
        ((sortQ l)[l.length / 2]?).getD 0) / 2

/-- The committed `DetectedFrames` row (pipeline.py lines 436-445,
without the raw `frame_data` blob). -/
structure DetectedFramesRow where
  frames_detected : Nat
  frames_missed : Nat
  fraction_found : ℚ
  median_confidence : ℚ
  mean_other_people : ℚ
deriving DecidableEq

/-- Embeds `DetectedFrames.make` (pipeline.py lines 448-487): counts of
detected and missed frames, `fraction_found = detected / (missed +
detected)` (line 478), the median confidence over detected frames when any
exist and 0.0 otherwise (lines 480-483), and `np.nanmean` of the others
counts (line 484; the counts are integers, so no NaN ever occurs and the
nanmean is the plain mean). -/
def detectedFramesMake (keep : List Int) (tracks : List (List Det)) :
    DetectedFramesRow :=
  let stats := extract_person_stats keep tracks
  let detected := (stats.filter (fun s => s.present)).length
  let missed := (stats.filter (fun s => !s.present)).length
  { frames_detected := detected
    frames_missed := missed
    fraction_found := (detected : ℚ) / ((missed : ℚ) + (detected : ℚ))
    median_confidence :=
      if 0 < detected then
        ratMedian ((stats.filter (fun s => s.present)).map
          (fun s => s.confidence))
      else 0
    mean_other_people :=
      ((stats.map (fun s => (s.others : ℚ))).sum) / (stats.length : ℚ) }

/-! ### Method dispatch (pipeline.py lines 251-301 and 617-628) -/

/-- The backend wrappers selectable in `TrackingBbox.make`. -/
inductive TrackingBackend
  | deepSortYolov4
  | mmtrackTracktor
  | mmtrackDeepsort
  | mmtrackBytetrack
  | fairmot
  | transtrack
  | trades
deriving DecidableEq

/-- The method names registered in `TrackingBboxMethodLookup.contents`
(pipeline.py lines 224-232). -/
def registeredTrackingMethodNames : List String :=
  ["DeepSortYOLOv4", "MMTrack_tracktor", "FairMOT", "TransTrack", "TraDeS",
   "MMTrack_deepsort", "MMTrack_bytetrack"]

/-- Python substring containment, the meaning of the expression
`name in "MMTrack_tracktor"` on pipeline.py line 260: `strContains t s`
is true iff `s` occurs contiguously inside `t` (the empty list occurs in
every list, as in Python). -/
def strContains (t s : List Char) : Bool :=
  (List.range (t.length + 1)).any (fun i => (t.drop i).take s.length == s)

/-- Embeds the dispatch chain of `TrackingBbox.make` (pipeline.py lines
255-292).  Every branch compares the looked-up `tracking_method_name` with
`==` except line 260, which is written `... in "MMTrack_tracktor"` in the
source and therefore performs a substring test; the final branch raises
`Unsupported tracking method`. -/
def trackingBboxDispatch (name : String) : Except String TrackingBackend :=
  if name = "DeepSortYOLOv4" then .ok .deepSortYolov4
  else if strContains "MMTrack_tracktor".data name.data then
    .ok .mmtrackTracktor
  else if name = "MMTrack_deepsort" then .ok .mmtrackDeepsort
  else if name = "MMTrack_bytetrack" then .ok .mmtrackBytetrack
  else if name = "FairMOT" then .ok .fairmot
  else if name = "TransTrack" then .ok .transtrack
  else if name = "TraDeS" then .ok .trades
  else .error ("Unsupported tracking method: " ++ name)

/-- Embeds `np.unique` over all track ids (pipeline.py line 294). -/
def numUniqueTrackIds (tracks : List (List Det)) : Nat :=
  ((tracks.flatten.map Det.track_id).dedup).length

/-- The committed `TrackingBbox` row (pipeline.py lines 244-248). -/
structure TrackingBboxRow where
  tracks : List (List Det)
  num_tracks : Nat
deriving DecidableEq

/-- Embeds the outcome of `TrackingBbox.make` (pipeline.py lines 251-301)
as a function of the looked-up method name and of the tracks produced by
whichever backend wrapper runs: a name that reaches the final `else`
raises, so no row is committed; a dispatched name commits the row built
from the backend output. -/
def trackingBboxMake (name : String) (backendTracks : List (List Det)) :
    Except String TrackingBboxRow :=
  match trackingBboxDispatch name with
  | .error e => .error e
  | .ok _ => .ok ⟨backendTracks, numUniqueTrackIds backendTracks⟩

/-- The backend wrappers selectable in `TopDownPerson.make`. -/
inductive TopDownBackend
  | mmpose
  | mmposeWholebody
deriving DecidableEq

/-- The method names registered in `TopDownMethodLookup.contents`
(pipeline.py lines 596-598). -/
def registeredTopDownMethodNames : List String :=
  ["MMPose", "MMPoseWholebody"]

/-- Embeds the dispatch chain of `TopDownPerson.make` (pipeline.py lines
617-628): equality tests against the two registered names, with the final
branch raising `Method not implemented` before any insert. -/
def topDownPersonDispatch (name : String) : Except String TopDownBackend :=
  if name = "MMPose" then .ok .mmpose
  else if name = "MMPoseWholebody" then .ok .mmposeWholebody
  else .error "Method not implemented"

/-! ### Transient-file handling of the make methods -/

/-- Removal of a transient file, `os.remove`. -/
def removeFile (f : String) (fs : List String) : List String := fs.erase f

/-- Embeds the file effects of `OpenPose.make` (pipeline.py lines
177-194).  The fetched video is materialized by `Video.get_robust_reader`
at line 179; `os.remove(video)` runs only at line 194, after the backend
call and the insert, so when the backend raises the exception propagates
with the file still on disk.  The result is the list of transient files
left behind, paired with whether a row was committed. -/
def openPoseMakeFiles (backendOk : Bool) : List String × Bool :=
  let fs := ["fetched_video"]
  if backendOk then (removeFile "fetched_video" fs, true)
  else (fs, false)

/-- Embeds the file effects of `TrackingBbox.make` (pipeline.py lines
251-301): the fetched video is materialized at line 253; the unsupported
method branch removes it before raising (lines 291-292); a backend raise
inside any dispatch branch propagates before the removal at lines 300-301;
a successful run removes the file after the insert. -/
def trackingBboxMakeFiles (name : String) (backendOk : Bool) :
    List String × Bool :=
  let fs := ["fetched_video"]
  match trackingBboxDispatch name with
  | .error _ => (removeFile "fetched_video" fs, false)
  | .ok _ =>
    if backendOk then (removeFile "fetched_video" fs, true)
    else (fs, false)

/-- Embeds the file effects of `SMPLPersonVideo.make` (pipeline.py lines
965-994): the blurred video is fetched at line 985 and the overlay temp
file is created by `tempfile.mkstemp` at line 987; after rendering and the
insert only `os.remove(video)` runs at line 994, and no statement in the
method ever removes `out_file_name`. -/
def smplPersonVideoMakeFiles (backendOk : Bool) : List String × Bool :=
  let fs := ["blurred_video"]
  let fs := "overlay_tmp" :: fs
  if backendOk then (removeFile "blurred_video" fs, true)
  else (fs, false)

/-! ### Keypoint-to-bbox matching and its callers -/

/-- A joint: image coordinates with a confidence. -/
abbrev Joint : Type := ℚ × ℚ × ℚ

/-- One candidate keypoint set detected in a frame. -/
abbrev Keypoints : Type := List Joint

/-- Modelled from the spec: `match_keypoints_to_bbox` lives in
`pose_pipeline/utils/keypoint_matching.py`, which is not under src/ (only
its callers are).  Following section 4.4 of the spec, the matcher scores
every candidate keypoint set against the target box and selects the single
candidate clearing the minimum-overlap threshold; when no candidate clears
it, or more than one qualifies ambiguously, it returns null for both the
matched keypoints and the matched index. -/
def match_keypoints_to_bbox (bbox : BBox) (cands : List Keypoints)
    (score : BBox → Keypoints → ℚ) (thresh : ℚ) :
    Option Keypoints × Option Nat :=
  match (cands.enum).filter (fun p => decide (thresh ≤ score bbox p.2)) with
  | [(i, kp)] => (some kp, some i)
  | _ => (none, none)

/-- The zero-filled hand-keypoint sentinel `np.zeros((2, 21, 3))` of
pipeline.py line 541. -/
def zeroHandKeypoints : List Keypoints :=
  List.replicate 2 (List.replicate 21 ((0 : ℚ), (0 : ℚ), (0 : ℚ)))

/-- Embeds the per-frame hand-keypoint substitution of
`OpenPosePerson.make` (pipeline.py lines 539-543): a frame whose match
index is None receives the zero-filled sentinel, any other frame receives
the two hand-keypoint arrays selected by the match index. -/
def openPoseHandKeypoints (hand : List Keypoints × List Keypoints)
    (openpose_id : Option Nat) : List Keypoints :=
  match openpose_id with
  | none => zeroHandKeypoints
  | some i => [hand.1.getD i [], hand.2.getD i []]

/-- Embeds the per-frame parameter substitution of `CenterHMRPerson.make`
(pipeline.py lines 1064-1075): a frame whose match index is None receives
an array of `n` NaNs (embedded as `none`), any other frame receives the
parameters selected by the match index. -/
def centerHmrSelect (n : Nat) (params : List (List ℚ)) (id : Option Nat) :
    List (Option ℚ) :=
  match id with
  | none => List.replicate n none
  | some i => (params.getD i []).map some

/-! ### key_source restrictions (pipeline.py lines 429-431 and 489-491) -/

/-- The primary key of a `PersonBboxValid` row (pipeline.py lines
360-367): the tracking key plus the manual `video_subject_id`. -/
structure PersonBboxValidKey where
  tracking_method : Int
  video_subject_id : Int
deriving DecidableEq

/-- Embeds `PersonBbox.key_source` (pipeline.py lines 429-431): the keys
offered for computation are the `PersonBboxValid` rows restricted by
`video_subject_id >= 0`. -/
def personBboxKeySource (rows : List PersonBboxValidKey) :
    List PersonBboxValidKey :=
  rows.filter (fun r => decide (0 ≤ r.video_subject_id))

/-- Embeds `DetectedFrames.key_source` (pipeline.py lines 489-491), the
same restriction `video_subject_id >= 0`. -/
def detectedFramesKeySource (rows : List PersonBboxValidKey) :
    List PersonBboxValidKey :=
  rows.filter (fun r => decide (0 ≤ r.video_subject_id))

/-- Modelled from the spec: `populate` is provided by the external
datajoint library, not under src/.  Following section 4.1 of the spec,
`populate(stage)` computes and commits every key of the key source that
is not yet committed, so the keys ever selected for computation are
exactly the key source minus the committed ones. -/
def populateSelects (keySource committed : List PersonBboxValidKey) :
    List PersonBboxValidKey :=
  keySource.filter (fun k => !committed.contains k)

/-! ### Concrete inputs used by witnesses -/

/-- A single kept detection used by the C1 witness. -/
def wDet : Det := ⟨3, (1, 2, 3, 4), none⟩

/-- A kept detection with an explicit confidence, for the statistics
witness. -/
def statDetA : Det := ⟨3, (1, 1, 1, 1), some (9 / 10)⟩

/-- A non-kept detection, for the statistics witness. -/
def statDetB : Det := ⟨4, (2, 2, 2, 2), none⟩

/-- A two-frame tracking run: the subject plus a bystander in frame 0,
only the bystander in frame 1. -/
def statTracks : List (List Det) := [[statDetA, statDetB], [statDetB]]

/-- A subject assignment with a negative id, for the key-source witness. -/
def negKey : PersonBboxValidKey := ⟨0, -1⟩

/-- The confidence recorded for a frame when it is detected (exactly one
kept detection, with the 1.0 default of pipeline.py line 467), and nothing
otherwise.  This is the spec-side description of the entries whose median
`DetectedFrames.make` reports. -/
def detectedConfidence (keep : List Int) (f : List Det) : Option ℚ :=
  match f.filter (fun x => keep.contains x.track_id) with
  | [d] => some (d.confidence.getD 1)
  | _ => none

/-! ### Helper lemmas -/

/-- The statistics entry of a frame with exactly one kept detection. -/
lemma process_stat_eq_single (keep : List Int) (frame : List Det) (d : Det)
    (hv : frame.filter (fun x => keep.contains x.track_id) = [d]) :
    process_stat keep frame =
      ⟨true, d.confidence.getD 1, frame.length - 1⟩ := by
  unfold process_stat
  rw [hv]

/-- The statistics entry of a frame without exactly one kept detection. -/
lemma process_stat_eq_other (keep : List Int) (frame : List Det)
    (hv : (frame.filter (fun x => keep.contains x.track_id)).length ≠ 1) :
    process_stat keep frame = ⟨false, 0, frame.length⟩ := by
  unfold process_stat
  rcases hw : frame.filter (fun x => keep.contains x.track_id) with
    _ | ⟨d, _ | ⟨e, rest⟩⟩
  · rw [hw]
  · rw [hw] at hv
    simp at hv
  · rw [hw]

/-- The spec-side detected confidence of a frame with exactly one kept
detection. -/
lemma detectedConfidence_single (keep : List Int) (f : List Det) (d : Det)
    (hv : f.filter (fun x => keep.contains x.track_id) = [d]) :
    detectedConfidence keep f = some (d.confidence.getD 1) := by
  unfold detectedConfidence
  rw [hv]

/-- The spec-side detected confidence of a frame without exactly one kept
detection. -/
lemma detectedConfidence_other (keep : List Int) (f : List Det)
    (hv : (f.filter (fun x => keep.contains x.track_id)).length ≠ 1) :
    detectedConfidence keep f = none := by
  unfold detectedConfidence
  rcases hw : f.filter (fun x => keep.contains x.track_id) with
    _ | ⟨d, _ | ⟨e, rest⟩⟩
  · rw [hw]
  · rw [hw] at hv
    simp at hv
  · rw [hw]

/-- The statistics entry of a frame is marked present exactly when the
frame holds exactly one kept detection. -/
lemma process_stat_present (keep : List Int) (frame : List Det) :
    (process_stat keep frame).present =
      ((frame.filter (fun x => keep.contains x.track_id)).length == 1) := by
  rcases hv : frame.filter (fun x => keep.contains x.track_id) with
    _ | ⟨d, _ | ⟨e, rest⟩⟩
  · rw [process_stat_eq_other keep frame (by rw [hv]; simp), hv]
    rfl
  · rw [process_stat_eq_single keep frame d hv, hv]
    rfl
  · rw [process_stat_eq_other keep frame (by rw [hv]; simp), hv]
    simp

/-- The others count of a statistics entry, expressed directly on the
frame: all tracked objects but the subject on a detected frame, all
tracked objects on a missed frame. -/
lemma process_stat_others (keep : List Int) (frame : List Det) :
    ((process_stat keep frame).others : ℚ) =
      if (frame.filter (fun x => keep.contains x.track_id)).length == 1
      then ((frame.length - 1 : Nat) : ℚ) else (frame.length : ℚ) := by
  rcases hv : frame.filter (fun x => keep.contains x.track_id) with
    _ | ⟨d, _ | ⟨e, rest⟩⟩
  · rw [process_stat_eq_other keep frame (by rw [hv]; simp), hv]
    simp
  · rw [process_stat_eq_single keep frame d hv, hv]
    simp
  · rw [process_stat_eq_other keep frame (by rw [hv]; simp), hv]
    simp

/-- The confidences collected over the present statistics entries are the
detected confidences of the frames. -/
lemma stats_confidences (keep : List Int) (tracks : List (List Det)) :
    ((extract_person_stats keep tracks).filter (fun s => s.present)).map
        (fun s => s.confidence) =
      tracks.filterMap (detectedConfidence keep) := by
  induction tracks with
  | nil => rfl
  | cons f ts ih =>
    rw [extract_person_stats, List.map_cons, List.filterMap_cons]
    rcases hv : f.filter (fun x => keep.contains x.track_id) with
      _ | ⟨d, _ | ⟨e, rest⟩⟩
    · rw [process_stat_eq_other keep f (by rw [hv]; simp),
        detectedConfidence_other keep f (by rw [hv]; simp)]
      simpa [extract_person_stats] using ih
    · rw [process_stat_eq_single keep f d hv,
        detectedConfidence_single keep f d hv]
      simpa [extract_person_stats] using ih
    · rw [process_stat_eq_other keep f (by rw [hv]; simp),
        detectedConfidence_other keep f (by rw [hv]; simp)]
      simpa [extract_person_stats] using ih

/-- A backward-fill pass preserves the frame count. -/
lemma bfill2_length {α : Type} (l : List (Option α)) :
    (bfill2 l).length = l.length := by
  simp [bfill2]

/-- A forward-fill pass preserves the frame count. -/
lemma ffill2_length {α : Type} (l : List (Option α)) :
    (ffill2 l).length = l.length := by
  simp [ffill2]

/-- Pointwise description of the backward-fill pass. -/
lemma bfill2_getElem {α : Type} (l : List (Option α)) (k : Nat)
    (hk : k < l.length) : (bfill2 l)[k]? = some (bfill2At l k) := by
  rw [bfill2, List.getElem?_map, List.getElem?_range hk]
  rfl

/-- Pointwise description of the forward-fill pass. -/
lemma ffill2_getElem {α : Type} (l : List (Option α)) (k : Nat)
    (hk : k < l.length) : (ffill2 l)[k]? = some (ffill2At l k) := by
  rw [ffill2, List.getElem?_map, List.getElem?_range hk]
  rfl

/-- A predicate and its negation split the length of a list. -/
lemma filter_length_split {β : Type} (p : β → Bool) (l : List β) :
    (l.filter p).length + (l.filter (fun b => !p b)).length = l.length := by
  induction l with
  | nil => rfl
  | cons a t ih =>
    cases hp : p a <;> simp [List.filter_cons, hp] <;> omega

/-! ### Claim theorems -/

/-- C1.  For every frame t of the tracks input and every keep set, the
pre-smoothing per-frame rule of the Track Resolver holds: when the kept
detections of frame t are exactly one detection d, the entry is present
with the box of d; when their count is not one (zero, or more than one),
the entry is absent with the zero box. -/
theorem personBbox_prefill_frame_rule (keep : List Int)
    (tracks : List (List Det)) (t : Nat) (frame : List Det)
    (hf : tracks[t]? = some frame) :
    (∀ d : Det, frame.filter (fun x => keep.contains x.track_id) = [d] →
      (extract_person_track keep tracks)[t]? = some (true, d.tlhw)) ∧
    ((frame.filter (fun x => keep.contains x.track_id)).length ≠ 1 →
      (extract_person_track keep tracks)[t]? =
        some (false, (0, 0, 0, 0))) := by
  have hmap : (extract_person_track keep tracks)[t]? =
      some (process_timestamp keep frame) := by
    rw [extract_person_track, List.getElem?_map, hf]
    rfl
  constructor
  · intro d hd
    rw [hmap]
    unfold process_timestamp
    rw [hd]
  · intro hne
    rw [hmap]
    unfold process_timestamp
    rcases hv : frame.filter (fun x => keep.contains x.track_id) with
      _ | ⟨d, _ | ⟨e, rest⟩⟩
    · rw [hv]
    · rw [hv] at hne
      simp at hne
    · rw [hv]

/-- Witness for C1: a frame with a unique kept detection resolves to its
box, and a frame with none resolves to the absent zero-box entry. -/
theorem personBbox_prefill_frame_rule_witness :
    (extract_person_track [3] [[wDet], []])[0]? = some (true, (1, 2, 3, 4)) ∧
    (extract_person_track [3] [[wDet], []])[1]? =
      some (false, (0, 0, 0, 0)) :=
  ⟨(personBbox_prefill_frame_rule [3] [[wDet], []] 0 [wDet] rfl).1 wDet
      (by decide),
   (personBbox_prefill_frame_rule [3] [[wDet], []] 1 [] rfl).2 (by decide)⟩

/-- C2.  The gap-filling smoothing of the Track Resolver: the output has
the same frame count as the input; the recomputed present flag is true
exactly when the frame keeps a value after both fills; a single missing
frame directly followed by a valid frame receives the value of that later
frame (the backward pass runs first); and on the concrete 5-frame scenario
with only frame 2 missing the resolver returns all-present with frame 2
carrying the box of frame 3. -/
theorem personBbox_smoothing_spec :
    (∀ (keep : List Int) (tracks : List (List Det)),
      (personBboxMake keep tracks).present.length = tracks.length ∧
      (personBboxMake keep tracks).bbox.length = tracks.length) ∧
    (∀ (keep : List Int) (tracks : List (List Det)) (t : Nat),
      (personBboxMake keep tracks).present[t]? =
        ((personBboxMake keep tracks).bbox[t]?).map Option.isSome) ∧
    (∀ (keep : List Int) (tracks : List (List Det)) (t : Nat) (b : BBox),
      (maskMissing (extract_person_track keep tracks))[t]? = some none →
      (maskMissing (extract_person_track keep tracks))[t + 1]? =
        some (some b) →
      (personBboxMake keep tracks).bbox[t]? = some (some b)) ∧
    personBboxMake [3] [[det3 10], [det3 11], [], [det3 13], [det3 14]] =
      ⟨[true, true, true, true, true],
       [some (10, 0, 0, 0), some (11, 0, 0, 0), some (13, 0, 0, 0),
        some (13, 0, 0, 0), some (14, 0, 0, 0)]⟩ := by
  refine ⟨?_, ?_, ?_, by decide⟩
  · intro keep tracks
    constructor <;>
      simp [personBboxMake, ffill2_length, bfill2_length, maskMissing,
        extract_person_track]
  · intro keep tracks t
    show ((ffill2 (bfill2 (maskMissing
        (extract_person_track keep tracks)))).map Option.isSome)[t]? =
      Option.map Option.isSome
        ((ffill2 (bfill2 (maskMissing
          (extract_person_track keep tracks))))[t]?)
    exact List.getElem?_map _ _ _
  · intro keep tracks t b h0 h1
    have ht : t < (maskMissing (extract_person_track keep tracks)).length :=
      (List.getElem?_eq_some_iff.mp h0).1
    have hb : (bfill2 (maskMissing (extract_person_track keep tracks)))[t]? =
        some (some b) := by
      rw [bfill2_getElem _ t ht]
      unfold bfill2At
      rw [h0, h1]
    have ht2 :
        t < (bfill2 (maskMissing (extract_person_track keep tracks))).length := by
      rw [bfill2_length]
      exact ht
    show (ffill2 (bfill2 (maskMissing (extract_person_track keep tracks))))[t]? =
      some (some b)
    rw [ffill2_getElem _ t ht2]
    unfold ffill2At
    rw [hb]

/-- Witness for C2: the concrete 5-frame single-gap scenario, obtained by
applying the smoothing theorem. -/
theorem personBbox_smoothing_spec_witness :
    personBboxMake [3] [[det3 10], [det3 11], [], [det3 13], [det3 14]] =
      ⟨[true, true, true, true, true],
       [some (10, 0, 0, 0), some (11, 0, 0, 0), some (13, 0, 0, 0),
        some (13, 0, 0, 0), some (14, 0, 0, 0)]⟩ :=
  personBbox_smoothing_spec.2.2.2

/-- C3 counterexample.  On the 5-frame input where frames 1 to 4 hold no
kept detection, the resolver output is present = [T, T, T, F, F], not the
claimed [T, F, F, F, F]: the forward pass fills two frames from the
earlier valid neighbor. -/
theorem personBbox_scenarioB_counterexample :
    (personBboxMake [3] [[det3 10], [], [], [], []]).present =
      [true, true, true, false, false] ∧
    (personBboxMake [3] [[det3 10], [], [], [], []]).present ≠
      [true, false, false, false, false] := by
  decide

/-- C3 amended.  On the same input the resolver yields
present = [T, T, T, F, F]: the backward pass fills nothing (there is no
later valid frame), the forward pass fills the first two missing frames
from frame 0, and beyond the 2-frame window the present flag stays false
with the bbox coordinates left missing (NaN), not zero. -/
theorem personBbox_scenarioB_amended :
    personBboxMake [3] [[det3 10], [], [], [], []] =
      ⟨[true, true, true, false, false],
       [some (10, 0, 0, 0), some (10, 0, 0, 0), some (10, 0, 0, 0),
        none, none]⟩ := by
  decide

/-- C4 counterexample.  A frame holding two kept detections is masked like
any missing frame and can be filled by the smoothing passes: flanked by
valid neighbors, its final present flag is true, contradicting the claim
that it stays false regardless of smoothing eligibility. -/
theorem personBbox_duplicate_counterexample :
    (personBboxMake [3] [[det3 10], [det3 11, det3 12], [det3 13]]).present =
      [true, true, true] ∧
    (personBboxMake [3]
        [[det3 10], [det3 11, det3 12], [det3 13]]).bbox[1]? =
      some (some (13, 0, 0, 0)) := by
  decide

/-- C4 amended.  A frame with two or more kept detections is absent with
the zero box in the pre-smoothing resolver output; the smoothing then
treats it like any other missing frame, so its final present flag can
become true with a carried-over neighbor value; and in the final output an
absent frame always has a missing bbox, never a raw detection box. -/
theorem personBbox_duplicate_amended (keep : List Int)
    (tracks : List (List Det)) (t : Nat) (frame : List Det)
    (hf : tracks[t]? = some frame)
    (hdup : 2 ≤ (frame.filter (fun x => keep.contains x.track_id)).length) :
    (extract_person_track keep tracks)[t]? = some (false, (0, 0, 0, 0)) ∧
    ∀ s : Nat, (personBboxMake keep tracks).present[s]? = some false →
      (personBboxMake keep tracks).bbox[s]? = some none := by
  constructor
  · exact (personBbox_prefill_frame_rule keep tracks t frame hf).2
      (by omega)
  · intro s hs
    have hmap : ((ffill2 (bfill2 (maskMissing
        (extract_person_track keep tracks)))).map Option.isSome)[s]? =
        some false := hs
    rw [List.getElem?_map] at hmap
    cases hv : (ffill2 (bfill2 (maskMissing
        (extract_person_track keep tracks))))[s]? with
    | none =>
      rw [hv] at hmap
      simp at hmap
    | some v =>
      rw [hv] at hmap
      cases v with
      | none => exact hv
      | some b =>
        simp at hmap

/-- Witness for C4 amended: a single-frame input with a duplicated kept
track resolves to the absent zero-box entry before smoothing and to a
missing bbox in the final output. -/
theorem personBbox_duplicate_amended_witness :
    (extract_person_track [3] [[det3 11, det3 12]])[0]? =
      some (false, (0, 0, 0, 0)) ∧
    (personBboxMake [3] [[det3 11, det3 12]]).bbox[0]? = some none :=
  ⟨(personBbox_duplicate_amended [3] [[det3 11, det3 12]] 0
      [det3 11, det3 12] rfl (by decide)).1,
   (personBbox_duplicate_amended [3] [[det3 11, det3 12]] 0
      [det3 11, det3 12] rfl (by decide)).2 0 (by decide)⟩

/-- C5.  Each fill pass leaves part of every long run unfilled: when three
consecutive frames are missing, the backward pass leaves the first of them
missing and the forward pass leaves the last of them missing, so a run of
missing values longer than 2 is never fully filled by either single
pass. -/
theorem fill_passes_leave_long_runs {α : Type} (l : List (Option α))
    (i : Nat) (h0 : l[i]? = some none) (h1 : l[i + 1]? = some none)
    (h2 : l[i + 2]? = some none) :
    (bfill2 l)[i]? = some none ∧ (ffill2 l)[i + 2]? = some none := by
  have hi : i < l.length := (List.getElem?_eq_some_iff.mp h0).1
  have hi2 : i + 2 < l.length := (List.getElem?_eq_some_iff.mp h2).1
  constructor
  · rw [bfill2_getElem l i hi]
    unfold bfill2At
    rw [h0, h1, h2]
  · rw [ffill2_getElem l (i + 2) hi2]
    have hval : ffill2At l (i + 2) = none := by
      unfold ffill2At
      split
      · rename_i x hx
        rw [h2] at hx
        simp at hx
      · split
        · rfl
        · rename_i j heq
          have hj : j = i + 1 := by omega
          subst hj
          split
          · rename_i x hx
            rw [h1] at hx
            simp at hx
          · split
            · rfl
            · rename_i i2 heq2
              have hi2e : i2 = i := by omega
              subst hi2e
              split
              · rename_i x hx
                rw [h0] at hx
                simp at hx
              · rfl
    rw [hval]

/-- Witness for C5: a run of three missing frames before one valid frame;
the backward pass leaves its first frame missing and the forward pass its
last. -/
theorem fill_passes_leave_long_runs_witness :
    (bfill2 ([none, none, none, some true] : List (Option Bool)))[0]? =
      some none ∧
    (ffill2 ([none, none, none, some true] : List (Option Bool)))[2]? =
      some none :=
  fill_passes_leave_long_runs [none, none, none, some true] 0
    (by decide) (by decide) (by decide)

/-- C6.  The dispatch of `TrackingBbox.make` accepts the unregistered
method name Track, because line 260 of the source tests
`name in "MMTrack_tracktor"`, a Python substring test, instead of
equality: the make commits a row for it rather than raising.  By contrast
the dispatch of `TopDownPerson.make` rejects an unregistered name with the
Method not implemented error, as the claim demands. -/
theorem trackingBbox_substring_dispatch_bug :
    trackingBboxDispatch "Track" = .ok .mmtrackTracktor ∧
    registeredTrackingMethodNames.contains "Track" = false ∧
    trackingBboxMake "Track" [] = .ok ⟨[], 0⟩ ∧
    topDownPersonDispatch "UnknownAlgo" = .error "Method not implemented" ∧
    registeredTopDownMethodNames.contains "UnknownAlgo" = false :=
  ⟨rfl, rfl, rfl, rfl, rfl⟩

/-- C7.  When the Keypoint-BBox Matcher finds zero qualifying candidates
or ambiguously many, it returns null for both outputs, and the callers in
the source substitute absent sentinels for a null match index: the
zero-filled hand-keypoint array of the expected shape in
`OpenPosePerson.make` and NaN-filled parameter arrays of the expected
sizes in `CenterHMRPerson.make`; the substitution is total, so the
ambiguity never surfaces as a failure of the stage. -/
theorem matcher_null_absent_sentinel (bbox : BBox) (cands : List Keypoints)
    (score : BBox → Keypoints → ℚ) (thresh : ℚ)
    (h : ((cands.enum).filter
      (fun p => decide (thresh ≤ score bbox p.2))).length ≠ 1) :
    match_keypoints_to_bbox bbox cands score thresh = (none, none) ∧
    (∀ hand : List Keypoints × List Keypoints,
      openPoseHandKeypoints hand none = zeroHandKeypoints) ∧
    (∀ params : List (List ℚ),
      centerHmrSelect 69 params none = List.replicate 69 none) ∧
    (∀ params : List (List ℚ),
      centerHmrSelect 10 params none = List.replicate 10 none) ∧
    (∀ params : List (List ℚ),
      centerHmrSelect 3 params none = List.replicate 3 none) := by
  refine ⟨?_, fun hand => rfl, fun params => rfl, fun params => rfl,
    fun params => rfl⟩
  unfold match_keypoints_to_bbox
  rcases hv : (cands.enum).filter
      (fun p => decide (thresh ≤ score bbox p.2)) with
    _ | ⟨⟨i, kp⟩, _ | ⟨q, r⟩⟩
  · rw [hv]
  · rw [hv] at h
    simp at h
  · rw [hv]

/-- Witness for C7: with no candidate at all, the matcher returns the null
pair. -/
theorem matcher_null_absent_sentinel_witness :
    match_keypoints_to_bbox (0, 0, 0, 0) [] (fun _ _ => 0) 1 =
      (none, none) :=
  (matcher_null_absent_sentinel (0, 0, 0, 0) [] (fun _ _ => 0) 1
    (by decide)).1

/-- C8.  Transient local artifacts are not deleted on every exit path:
when the backend of `OpenPose.make` raises, the fetched video survives;
`SMPLPersonVideo.make` leaves its rendered overlay temp file behind even
on success (and both files on failure); `TrackingBbox.make` cleans up on
the unsupported-method early return but leaks the fetched video when a
backend raises. -/
theorem transient_artifact_cleanup_bug :
    openPoseMakeFiles false = (["fetched_video"], false) ∧
    openPoseMakeFiles true = ([], true) ∧
    smplPersonVideoMakeFiles true = (["overlay_tmp"], true) ∧
    smplPersonVideoMakeFiles false =
      (["overlay_tmp", "blurred_video"], false) ∧
    trackingBboxMakeFiles "UnknownAlgo" true = ([], false) ∧
    trackingBboxMakeFiles "DeepSortYOLOv4" false =
      (["fetched_video"], false) :=
  ⟨rfl, rfl, rfl, rfl, rfl, rfl⟩

/-- C9.  The DetectedFrames statistics over a nonempty tracks input:
frames detected counts the frames with exactly one kept detection, frames
missed counts the rest, the two counts partition the frames, the fraction
found is detected over detected plus missed, the median confidence is
taken over the detected frames only (whenever any frame is detected), and
the mean others count averages, over all frames, the number of tracked
objects besides the subject (all tracked objects on a missed frame). -/
theorem detectedFrames_statistics (keep : List Int)
    (tracks : List (List Det)) (hne : tracks ≠ []) :
    (detectedFramesMake keep tracks).frames_detected =
      (tracks.filter (fun f =>
        (f.filter (fun x => keep.contains x.track_id)).length == 1)).length ∧
    (detectedFramesMake keep tracks).frames_missed =
      (tracks.filter (fun f =>
        !((f.filter (fun x =>
          keep.contains x.track_id)).length == 1))).length ∧
    (detectedFramesMake keep tracks).frames_detected +
      (detectedFramesMake keep tracks).frames_missed = tracks.length ∧
    (detectedFramesMake keep tracks).fraction_found =
      ((detectedFramesMake keep tracks).frames_detected : ℚ) /
        (((detectedFramesMake keep tracks).frames_detected : ℚ) +
          ((detectedFramesMake keep tracks).frames_missed : ℚ)) ∧
    (0 < (detectedFramesMake keep tracks).frames_detected →
      (detectedFramesMake keep tracks).median_confidence =
        ratMedian (tracks.filterMap (detectedConfidence keep))) ∧
    (detectedFramesMake keep tracks).mean_other_people =
      ((tracks.map (fun f =>
        if (f.filter (fun x => keep.contains x.track_id)).length == 1
        then ((f.length - 1 : Nat) : ℚ) else (f.length : ℚ))).sum) /
        (tracks.length : ℚ) := by
  have hdet : (detectedFramesMake keep tracks).frames_detected =
      ((extract_person_stats keep tracks).filter
        (fun s => s.present)).length := rfl
  have hmiss : (detectedFramesMake keep tracks).frames_missed =
      ((extract_person_stats keep tracks).filter
        (fun s => !s.present)).length := rfl
  have hfrac : (detectedFramesMake keep tracks).fraction_found =
      (((extract_person_stats keep tracks).filter
          (fun s => s.present)).length : ℚ) /
        ((((extract_person_stats keep tracks).filter
            (fun s => !s.present)).length : ℚ) +
          (((extract_person_stats keep tracks).filter
            (fun s => s.present)).length : ℚ)) := rfl
  have hmed : (detectedFramesMake keep tracks).median_confidence =
      if 0 < ((extract_person_stats keep tracks).filter
          (fun s => s.present)).length then
        ratMedian (((extract_person_stats keep tracks).filter
          (fun s => s.present)).map (fun s => s.confidence))
      else 0 := rfl
  have hmean : (detectedFramesMake keep tracks).mean_other_people =
      (((extract_person_stats keep tracks).map
          (fun s => (s.others : ℚ))).sum) /
        ((extract_person_stats keep tracks).length : ℚ) := rfl
  have hlen : (extract_person_stats keep tracks).length = tracks.length := by
    simp [extract_person_stats]
  refine ⟨?_, ?_, ?_, ?_, ?_, ?_⟩
  · rw [hdet, ← List.countP_eq_length_filter, ← List.countP_eq_length_filter,
      extract_person_stats, List.countP_map]
    simp only [Function.comp_def, process_stat_present]
  · rw [hmiss, ← List.countP_eq_length_filter, ← List.countP_eq_length_filter,
      extract_person_stats, List.countP_map]
    simp only [Function.comp_def, process_stat_present]
  · rw [hdet, hmiss, ← hlen]
    exact filter_length_split (fun s => s.present)
      (extract_person_stats keep tracks)
  · rw [hfrac, hdet, hmiss]
    rw [add_comm]
  · intro hpos
    rw [hdet] at hpos
    rw [hmed, if_pos hpos, stats_confidences]
  · rw [hmean]
    have hmapeq : (extract_person_stats keep tracks).map
        (fun s => (s.others : ℚ)) =
        tracks.map (fun f =>
          if (f.filter (fun x => keep.contains x.track_id)).length == 1
          then ((f.length - 1 : Nat) : ℚ) else (f.length : ℚ)) := by
      rw [extract_person_stats, List.map_map]
      exact List.map_congr_left (fun f _ => process_stat_others keep f)
    rw [hmapeq, hlen]

/-- Witness for C9: the two-frame sample run has one detected and one
missed frame, partitioning its frames. -/
theorem detectedFrames_statistics_witness :
    (detectedFramesMake [3] statTracks).frames_detected +
      (detectedFramesMake [3] statTracks).frames_missed =
      statTracks.length :=
  (detectedFrames_statistics [3] statTracks (by decide)).2.2.1

/-- C10.  Every key selected for computation by the PersonBbox and
DetectedFrames stages has a nonnegative video_subject_id, and a key with a
negative id is never selected: the key_source restriction filters it out
before the scheduler sees it. -/
theorem keySource_restricts_to_nonnegative
    (rows committed : List PersonBboxValidKey) (r : PersonBboxValidKey) :
    (r ∈ populateSelects (personBboxKeySource rows) committed →
      0 ≤ r.video_subject_id) ∧
    (r ∈ populateSelects (detectedFramesKeySource rows) committed →
      0 ≤ r.video_subject_id) ∧
    (r.video_subject_id < 0 →
      ¬r ∈ populateSelects (personBboxKeySource rows) committed ∧
      ¬r ∈ populateSelects (detectedFramesKeySource rows) committed) := by
  have key : ∀ ks : List PersonBboxValidKey,
      r ∈ populateSelects
        (ks.filter (fun k => decide (0 ≤ k.video_subject_id))) committed →
      0 ≤ r.video_subject_id := by
    intro ks hmem
    have h1 : r ∈ ks.filter (fun k => decide (0 ≤ k.video_subject_id)) :=
      (List.mem_filter.mp hmem).1
    exact of_decide_eq_true (List.mem_filter.mp h1).2
  refine ⟨key rows, key rows, ?_⟩
  intro hneg
  constructor <;> intro hmem <;> exact absurd (key rows hmem) (by omega)

/-- Witness for C10: a subject assignment with id -1 is not selected by
either stage. -/
theorem keySource_restricts_to_nonnegative_witness :
    ¬negKey ∈ populateSelects (personBboxKeySource [negKey, ⟨0, 2⟩]) [] ∧
    ¬negKey ∈ populateSelects (detectedFramesKeySource [negKey, ⟨0, 2⟩]) [] :=
  (keySource_restricts_to_nonnegative [negKey, ⟨0, 2⟩] [] negKey).2.2
    (by decide)

end PosePipeline
